import Mathlib

/-!
Verification development for the reabel-platform front end.

The JavaScript services are embedded shallowly:
* plain objects become structures, `null` / missing values become `Option`;
* JavaScript numbers are modelled as rationals (`Rat`);
* stateful methods become explicit state-passing functions; a thrown
  exception becomes an `Except.error` result;
* `Map` / plain-object dictionaries become association lists;
* the single-threaded event loop is modelled by treating the synchronous
  prefix of an `async` method as one atomic step and the code behind an
  `await` as a separate step.

Each section names the service and source file it is translated from.
-/

namespace Reabel

/-- Association-list update mirroring JavaScript `Map.set` / object key
assignment: the first binding of the key is overwritten, otherwise the
binding is appended. -/
def setAssoc (l : List (String × String)) (k v : String) : List (String × String) :=
  match l with
  | [] => [(k, v)]
  | (k', v') :: rest => if k' == k then (k, v) :: rest else (k', v') :: setAssoc rest k v

/-- JavaScript `String.prototype.includes`: substring containment, on the
underlying character lists. -/
def strIncludes (s pat : String) : Bool :=
  decide (pat.data <:+: s.data)

/-! ### FormBuilder (src/frontend/components/Modal.js)

Value domain for dynamic-form values.  Form multi-select values are arrays
of strings, so `arr` carries a `List String`. -/

/-- A JavaScript value as it occurs in `FormBuilder.state.values`. -/
inductive JSValue where
  | str (s : String)
  | num (q : Rat)
  | boolean (b : Bool)
  | null
  | undefined
  | arr (l : List String)
deriving DecidableEq, Repr

/-- JavaScript truthiness (`!!v`) on the value domain above. -/
def truthy : JSValue → Bool
  | .str s => !(s == "")
  | .num q => !(q == 0)
  | .boolean b => b
  | .null => false
  | .undefined => false
  | .arr _ => true

/-- A field condition object: `condition {field, operator, value}`. -/
structure Condition where
  field : String
  operator : String
  value : JSValue

/-- The relevant slice of `FormBuilder.state`: the current form values.
Reading an absent key yields `undefined`, as in JavaScript. -/
structure FormState where
  values : List (String × JSValue)

/-- Property access `this.state.values[field]`. -/
def getFormValue (st : FormState) (field : String) : JSValue :=
  match st.values.lookup field with
  | some v => v
  | none => .undefined

/-- Model of `Array.prototype.includes` on a form value: true only when the field
value is an array containing the condition value (SameValueZero, which is
structural equality on this domain). -/
def jsArrayIncludes (fieldValue v : JSValue) : Bool :=
  match fieldValue, v with
  | .arr l, .str s => l.contains s
  | _, _ => false

/-- Model of `FormBuilder.evaluateCondition` (Modal.js lines 842-862).  JavaScript
loose equality `==` is a host-language primitive, passed in as `looseEq`;
the switch statement itself is translated verbatim. -/
def evaluateCondition (looseEq : JSValue → JSValue → Bool)
    (st : FormState) (c : Condition) : Bool :=
  let fieldValue := getFormValue st c.field
  match c.operator with
  | "===" => looseEq fieldValue c.value
  | "==" => looseEq fieldValue c.value
  | "!==" => !(looseEq fieldValue c.value)
  | "!=" => !(looseEq fieldValue c.value)
  | "includes" => jsArrayIncludes fieldValue c.value
  | "empty" => !(truthy fieldValue) || fieldValue == .str ""
  | "notEmpty" => truthy fieldValue && !(fieldValue == .str "")
  | _ => true

/-! ### RoleService (src/unnamed/part_002, RoleService class)

`this.roles` maps role ids to role definitions, `this.permissions` maps
role ids to permission-string lists (null before `initialize`), and
`this.currentRole` is the active role id (null before `initialize`). -/

/-- A role's navigation allow-list: either the string sentinel `"all"` or
an array of navigation identifiers.  A missing / malformed value behaves
like an empty array in every consumer, so it is not modelled separately. -/
inductive NavSetting where
  | all
  | items (l : List String)
deriving DecidableEq, Repr

/-- A role definition as loaded from `roles.json`. -/
structure RoleDef where
  name : String
  type : String
  icon : String
  readOnly : Bool
  navigation : NavSetting
deriving DecidableEq, Repr

/-- The `RoleService` instance state used by permission checks. -/
structure RoleState where
  roles : List (String × RoleDef)
  permissions : Option (List (String × List String))
  currentRole : Option String
deriving DecidableEq, Repr

namespace RoleService

/-- Model of `RoleService.hasPermission(permission, resource = null)`
(part_002 lines 597-620), translated line by line:
no permissions or no current role gives false; a role with no entry in the
permission matrix gives false; `"*"` or the hardcoded `"admin:*"` grant
everything; with a resource the code checks `permission:resource` and
`permission:*`; without a resource it checks the bare `permission`. -/
def hasPermission (rs : RoleState) (permission : String) (resource : Option String) : Bool :=
  match rs.permissions, rs.currentRole with
  | some perms, some current =>
    match perms.lookup current with
    | none => false
    | some rolePerms =>
      if rolePerms.contains "*" || rolePerms.contains "admin:*" then
        true
      else
        match resource with
        | some r =>
          rolePerms.contains (permission ++ ":" ++ r) || rolePerms.contains (permission ++ ":*")
        | none => rolePerms.contains permission
  | _, _ => false

end RoleService

/-- The permission rule exactly as the specification words it (for the
refinement comparison only; `RoleService.hasPermission` above is the
translation of the code): true iff the list contains `"*"`, or
`action:*`, or, with a resource, `action:resource`, or, without one, the
bare `action`. -/
def hasPermissionSpec (rolePerms : List String) (action : String) (resource : Option String) : Bool :=
  rolePerms.contains "*" || rolePerms.contains (action ++ ":*") ||
    (match resource with
     | some r => rolePerms.contains (action ++ ":" ++ r)
     | none => rolePerms.contains action)

/-! ### NavigationService (src/unnamed/part_004) -/

/-- A navigation item as loaded from `navigation.json`. -/
structure NavItem where
  id : String
  label : String
  icon : String
  href : String
deriving DecidableEq, Repr

/-- A navigation item annotated by `buildMenu`.  The `allowedNav === 'all'`
branch spreads only `isAllowed` and `isActive` onto the item, so
`isDisabled` is absent (`none`) there. -/
structure MenuItem where
  item : NavItem
  isAllowed : Bool
  isDisabled : Option Bool
  isActive : Bool
deriving DecidableEq, Repr

namespace NavigationService

/-- Model of `NavigationService.isItemAllowedForRole(item, allowedNav)`
(part_004 lines 91-99): `'all'` allows everything, a non-array value
allows nothing, and otherwise some allow-list entry must occur as a
substring of the item id or href. -/
def isItemAllowedForRole (item : NavItem) (allowedNav : NavSetting) : Bool :=
  match allowedNav with
  | .all => true
  | .items l => l.any (fun allowed => strIncludes item.id allowed || strIncludes item.href allowed)

/-- Model of `NavigationService.buildMenu(roleId)` (part_004 lines 46-83).
`navigationData` is null before `initialize` (the code returns `[]`),
`role` is `roleService.getCurrentRole()` (null gives `[]`), and
`isCurrentPage` reads `window.location`, passed here as an oracle. -/
def buildMenu (navigationData : Option (List NavItem)) (role : Option RoleDef)
    (isCurrentPage : String → Bool) : List MenuItem :=
  match navigationData with
  | none => []
  | some nav =>
    match role with
    | none => []
    | some role =>
      match role.navigation with
      | .all => nav.map (fun item => ⟨item, true, none, isCurrentPage item.id⟩)
      | .items l =>
        nav.map (fun item =>
          let isAllowed := isItemAllowedForRole item (.items l)
          ⟨item, isAllowed, some (!isAllowed), isCurrentPage item.id⟩)

end NavigationService

/-! ### ConfigService (src/frontend/services/configService.js) -/

/-- A workflow post-action declaration `{type, config}`.  The `config`
payload is consumed only by placeholder no-ops (`sendNotification`,
`autoAssign`), so only the dispatching `type` is modelled. -/
structure PostAction where
  type : String
deriving DecidableEq, Repr

/-- One entry of a workflow transition table:
`{to, label, roles?, post_actions?}` (the `to` key is called `toState`
here because `to` is reserved in Lean).  An absent `roles` key (`none`)
means the transition is unrestricted; an absent `post_actions` key
behaves exactly like an empty list in `executePostTransitionActions`. -/
structure Transition where
  toState : String
  label : String
  roles : Option (List String)
  post_actions : List PostAction := []
deriving DecidableEq, Repr

/-- A workflow definition `{states, initialState, transitions}`.  A
missing `transitions` object behaves like an empty table. -/
structure Workflow where
  states : List String
  initialState : String
  transitions : List (String × List Transition)
deriving DecidableEq, Repr

/-- Model of `configService.configs.workflows`: a map from workflow type to
definition, `none` before `initialize`. -/
abbrev Workflows := List (String × Workflow)

namespace ConfigService

/-- Model of `ConfigService.getWorkflow(workflowType)` (configService.js lines 76-79). -/
def getWorkflow (cfg : Option Workflows) (workflowType : String) : Option Workflow :=
  match cfg with
  | none => none
  | some wfs => wfs.lookup workflowType

/-- The role guard of one transition:
`!transition.roles || transition.roles.includes(roleId)`.  `roleId` is
`Option String` because `roleService.currentRole` can still be null;
`includes(null)` on a string array is false. -/
def transitionRoleOk (t : Transition) (roleId : Option String) : Bool :=
  match t.roles with
  | none => true
  | some rs =>
    match roleId with
    | some r => rs.contains r
    | none => false

/-- Model of `ConfigService.getAllowedTransitions(workflowType, currentState, roleId)`
(configService.js lines 168-178). -/
def getAllowedTransitions (cfg : Option Workflows) (workflowType fromState : String)
    (roleId : Option String) : List Transition :=
  match getWorkflow cfg workflowType with
  | none => []
  | some workflow =>
    let stateTransitions := (workflow.transitions.lookup fromState).getD []
    stateTransitions.filter (fun t => transitionRoleOk t roleId)

/-- Model of `ConfigService.canTransition(workflowType, fromState, toState, roleId)`
(configService.js lines 188-191). -/
def canTransition (cfg : Option Workflows) (workflowType fromState toState : String)
    (roleId : Option String) : Bool :=
  (getAllowedTransitions cfg workflowType fromState roleId).any (fun t => t.toState == toState)

/-- Model of `ConfigService.getDefaultWorkflows()` (configService.js lines 211-234),
the hardcoded fallback workflow configuration. -/
def getDefaultWorkflows : Workflows :=
  [("assessment",
    { states := ["draft", "active", "in_review", "approved", "published", "archived"]
      initialState := "draft"
      transitions :=
        [("draft",
          [{ toState := "active", label := "Activate",
             roles := some ["customer_admin", "domain_manager"] }]),
         ("active",
          [{ toState := "in_review", label := "Submit for Review",
             roles := some ["contributor", "domain_manager"] },
           { toState := "archived", label := "Archive",
             roles := some ["customer_admin"] }]),
         ("in_review",
          [{ toState := "approved", label := "Approve",
             roles := some ["reviewer", "customer_admin"] },
           { toState := "active", label := "Reject",
             roles := some ["reviewer", "customer_admin"] }]),
         ("approved",
          [{ toState := "published", label := "Publish",
             roles := some ["customer_admin"] }])] })]

end ConfigService

/-! ### ApiService (src/unnamed/part_001)

`load` is an `async` method; on the single-threaded event loop its body up
to the first `await` runs atomically.  `ApiService.load` below is that
synchronous prefix: it either answers from the cache, joins the pending
promise for the resource, or registers a fresh promise and starts the one
physical fetch (`loadLocal` / `loadRemote`).  `ApiService.settle` is the
continuation that runs when that fetch resolves.  Promises are named by
`Nat` ids, fetched payloads are opaque `String`s, and `fetchLog` records
each physical fetch that was started. -/

/-- The `ApiService` instance state: `this.cache`, `this.pendingRequests`,
a fresh-promise counter, and the log of physical fetches started. -/
structure ApiState where
  cache : List (String × String)
  pendingRequests : List (String × Nat)
  nextPromiseId : Nat
  fetchLog : List String
deriving DecidableEq, Repr

/-- What `load` hands back to its caller: a cached value, or the promise
the caller will await (whether joined or freshly created). -/
inductive LoadResult where
  | cached (data : String)
  | pending (promiseId : Nat)
deriving DecidableEq, Repr

namespace ApiService

/-- Synchronous prefix of `ApiService.load(resource)` (part_001 lines
73-107): cache hit returns the cached value with no I/O; a pending request
for the same resource is returned to the caller as-is; otherwise one
physical fetch is started and registered in `pendingRequests`. -/
def load (s : ApiState) (resource : String) : ApiState × LoadResult :=
  match s.cache.lookup resource with
  | some d => (s, .cached d)
  | none =>
    match s.pendingRequests.lookup resource with
    | some p => (s, .pending p)
    | none =>
      let p := s.nextPromiseId
      ({ s with
          pendingRequests := (resource, p) :: s.pendingRequests
          nextPromiseId := p + 1
          fetchLog := s.fetchLog ++ [resource] }, .pending p)

/-- The continuation after `await request` in `load` (part_001 lines
93-106): on success the result is cached and the pending entry removed;
on failure only the pending entry is removed and the error propagates to
every waiter of the coalesced promise. -/
def settle (s : ApiState) (resource : String) (outcome : Except String String) : ApiState :=
  match outcome with
  | .ok result =>
    { s with
        cache := setAssoc s.cache resource result
        pendingRequests := s.pendingRequests.filter (fun kv => !(kv.1 == resource)) }
  | .error _ =>
    { s with pendingRequests := s.pendingRequests.filter (fun kv => !(kv.1 == resource)) }

end ApiService

/-! ### RoleService.switchRole (src/unnamed/part_002, lines 527-572)

The shipped configuration (`app.config.js`) has `dataSources.mode =
'local'`, so the backend validation call inside `switchRole` is skipped.
The world for a role switch holds the `RoleService` state, the durable
client storage (`localStorage`), the store's `currentRole` snapshot and
the stream of emitted events. -/

/-- The payload `updateStoreRole` writes into `store.currentRole`. -/
structure StoreRoleEntry where
  id : String
  name : String
  type : String
  icon : String
  readOnly : Bool
  navigation : NavSetting
  permissions : List String
deriving DecidableEq, Repr

/-- Events emitted on the bus during a role switch. -/
inductive RoleEvent where
  | roleChanged (roleId : String) (role : RoleDef)
  | dataError (service : String) (action : String)
deriving DecidableEq, Repr

/-- World state threaded through `switchRole`. -/
structure RoleSwitchWorld where
  role : RoleState
  storage : List (String × String)
  storeCurrentRole : Option StoreRoleEntry
  events : List RoleEvent
deriving DecidableEq, Repr

namespace RoleService

/-- Model of `RoleService.updateStoreRole(roleId)` (part_002 lines 673-689):
writes the role's data and its permission list into the store; does
nothing when the role id is unknown. -/
def updateStoreRole (w : RoleSwitchWorld) (roleId : String) : RoleSwitchWorld :=
  match w.role.roles.lookup roleId with
  | none => w
  | some role =>
    { w with
        storeCurrentRole := some
          { id := roleId, name := role.name, type := role.type, icon := role.icon,
            readOnly := role.readOnly, navigation := role.navigation,
            permissions := ((w.role.permissions.getD []).lookup roleId).getD [] } }

/-- Model of `RoleService.switchRole(roleId)` (part_002 lines 527-572) with
`dataSources.mode = 'local'` as shipped: an unknown role id throws, the
catch block emits a DATA_ERROR event and returns false; otherwise the
current role is replaced, persisted under the storage key
`'reabel_' + 'demoRole'`, the store is updated, and a ROLE_CHANGED event
carrying the role id and its definition is emitted. -/
def switchRole (w : RoleSwitchWorld) (roleId : String) : RoleSwitchWorld × Bool :=
  match w.role.roles.lookup roleId with
  | none =>
    ({ w with events := w.events ++ [.dataError "RoleService" "switchRole"] }, false)
  | some role =>
    let w1 : RoleSwitchWorld :=
      { w with
          role := { w.role with currentRole := some roleId }
          storage := setAssoc w.storage ("reabel_" ++ "demoRole") roleId }
    let w2 := updateStoreRole w1 roleId
    ({ w2 with events := w2.events ++ [.roleChanged roleId role] }, true)

end RoleService

/-! ### AssessmentService (src/unnamed/part_003, AssessmentService class)

The world threaded through the assessment operations holds the loaded
assessments (`this.assessments`; the `this.cache` map mirrors it entry for
entry and is not modelled separately), the workflow configuration, the
`RoleService` state consulted by the permission checks, the current user
id and the wall-clock timestamp used for the `_at` stamps.  The shipped
configuration has `dataSources.mode = 'local'`, so `apiService.save`
always succeeds.  Dynamic object keys such as `` `${newState}_at` `` are
modelled by the `stamps` association list of an assessment. -/

/-- One assessment dimension (weight, nullable score, max score). -/
structure Dimension where
  id : String
  name : String
  weight : Rat
  score : Option Rat
  max_score : Rat
deriving DecidableEq, Repr

/-- One entry of the `dimension_scores` array built by `calculateScores`. -/
structure DimScore where
  dimension_id : String
  dimension_name : String
  score : Rat
  max_score : Rat
  percentage : Rat
  weight : Rat
deriving DecidableEq, Repr

/-- The slice of an assessment record touched by the modelled operations. -/
structure Assessment where
  id : String
  title : String
  status : String
  created_by : String
  assigned_to : List String
  dimensions : List Dimension
  progress : Int
  overall_score : Option Rat
  dimension_scores : List DimScore
  stamps : List (String × String)
  updated_at : String
deriving DecidableEq, Repr

/-- An `updates` object passed to `updateAssessment`; absent keys leave
the corresponding assessment field unchanged, mirroring
`{...assessment, ...updates}`. -/
structure AsmtUpdate where
  status : Option String := none
  stamps : List (String × String) := []
  progress : Option Int := none
  overall_score : Option Rat := none
  dimension_scores : Option (List DimScore) := none
deriving Repr

/-- Model of `{...assessment, ...updates, updated_at: new Date().toISOString()}`. -/
def applyUpdate (a : Assessment) (u : AsmtUpdate) (now : String) : Assessment :=
  { a with
      status := u.status.getD a.status
      progress := u.progress.getD a.progress
      overall_score :=
        match u.overall_score with
        | some s => some s
        | none => a.overall_score
      dimension_scores := u.dimension_scores.getD a.dimension_scores
      stamps := u.stamps.foldl (fun m kv => setAssoc m kv.1 kv.2) a.stamps
      updated_at := now }

/-- World state for the assessment operations. -/
structure AsmtWorld where
  assessments : List Assessment
  workflows : Option Workflows
  role : RoleState
  userId : String
  now : String
deriving Repr

namespace AssessmentService

/-- Model of `AssessmentService.getAssessment(assessmentId)` restricted to the
loaded-assessments path (part_003 lines 1041-1067): first match by id. -/
def getAssessment (w : AsmtWorld) (assessmentId : String) : Option Assessment :=
  w.assessments.find? (fun a => a.id == assessmentId)

/-- Model of `AssessmentService.canUpdate(assessment)` (part_003 lines 1136-1155). -/
def canUpdate (w : AsmtWorld) (a : Assessment) : Bool :=
  if !(RoleService.hasPermission w.role "write" (some "assessments")) then
    false
  else if a.created_by == w.userId then
    true
  else if a.assigned_to.contains w.userId then
    true
  else if w.role.currentRole == some "customer_admin"
       || w.role.currentRole == some "reabel_superadmin" then
    true
  else
    false

/-- Model of `this.assessments[index] = updated` after
`findIndex(a => a.id === assessmentId)`: replace the first assessment with
the given id. -/
def setFirst (l : List Assessment) (assessmentId : String) (a' : Assessment) : List Assessment :=
  match l with
  | [] => []
  | x :: xs => if x.id == assessmentId then a' :: xs else x :: setFirst xs assessmentId a'

/-- Model of `AssessmentService.updateAssessment(assessmentId, updates)` (part_003
lines 795-843): missing assessment and failed permission check throw
before any mutation; otherwise the merged record is persisted (the local-
mode save always succeeds) and the cached list is updated in place. -/
def updateAssessment (w : AsmtWorld) (assessmentId : String) (u : AsmtUpdate) :
    AsmtWorld × Except String Assessment :=
  match getAssessment w assessmentId with
  | none => (w, .error "Assessment not found")
  | some assessment =>
    if !(canUpdate w assessment) then
      (w, .error "Permission denied: Cannot update this assessment")
    else
      let updated := applyUpdate assessment u w.now
      ({ w with assessments := setFirst w.assessments assessmentId updated }, .ok updated)

/-- JavaScript `Math.round` on a rational: round half away from zero on
the values produced here, which equals the floor of `x + 1/2`. -/
def jsRound (x : Rat) : Int :=
  ⌊x + 1 / 2⌋

/-- The accumulators of the dimension loop in `calculateScores`. -/
structure ScoreAcc where
  totalWeightedScore : Rat := 0
  totalWeight : Rat := 0
  completedDimensions : Nat := 0
  dimensionScores : List DimScore := []
deriving DecidableEq, Repr

/-- One iteration of the dimension loop of `calculateScores` (part_003
lines 947-964): a dimension with a non-null score contributes
`percentage * weight` and `weight` to the running totals and an entry to
`dimension_scores`; an unscored dimension contributes nothing
(`return null`, filtered out afterwards). -/
def scoreStep (acc : ScoreAcc) (dim : Dimension) : ScoreAcc :=
  match dim.score with
  | some s =>
    let percentage := s / dim.max_score * 100
    { totalWeightedScore := acc.totalWeightedScore + percentage * dim.weight
      totalWeight := acc.totalWeight + dim.weight
      completedDimensions := acc.completedDimensions + 1
      dimensionScores := acc.dimensionScores ++
        [{ dimension_id := dim.id, dimension_name := dim.name, score := s,
           max_score := dim.max_score, percentage := percentage, weight := dim.weight }] }
  | none => acc

/-- The dimension loop of `calculateScores` (part_003 lines 942-964). -/
def scoresAccum (dims : List Dimension) : ScoreAcc :=
  dims.foldl scoreStep {}

/-- The object `calculateScores` returns to its caller (unrounded). -/
structure ScoreResult where
  overall_score : Rat
  dimension_scores : List DimScore
  progress : Rat
deriving DecidableEq, Repr

/-- Model of `AssessmentService.calculateScores(assessmentId)` (part_003 lines
938-991): aggregate the scored dimensions, then persist the rounded
progress, the overall score rounded to one decimal and the dimension
scores via `updateAssessment`, returning the unrounded figures. -/
def calculateScores (w : AsmtWorld) (assessmentId : String) :
    AsmtWorld × Except String ScoreResult :=
  match getAssessment w assessmentId with
  | none => (w, .error "Assessment not found")
  | some assessment =>
    let acc := scoresAccum assessment.dimensions
    let overallScore := if 0 < acc.totalWeight then acc.totalWeightedScore / acc.totalWeight else 0
    let progress := ((acc.completedDimensions : Rat) / (assessment.dimensions.length : Rat)) * 100
    match updateAssessment w assessmentId
        { progress := some (jsRound progress)
          overall_score := some ((jsRound (overallScore * 10) : Rat) / 10)
          dimension_scores := some acc.dimensionScores } with
    | (w', .error e) => (w', .error e)
    | (w', .ok _) => (w', .ok ⟨overallScore, acc.dimensionScores, progress⟩)

/-- The `for ... of transition.post_actions` loop with its per-action
`try/catch` (part_003 lines 907-929), generic in the action runner: each
action is run on the state left by its predecessor; a failure is recorded
in the log (mirroring `console.error`) and the loop continues with the
state the failed action left behind. -/
def execActionsLoop {σ : Type} (run : σ → PostAction → σ × Except String Unit) :
    σ → List PostAction → σ × List (String × Option String)
  | s, [] => (s, [])
  | s, action :: rest =>
    let step := run s action
    let entry : String × Option String :=
      (action.type, match step.2 with | .ok _ => none | .error e => some e)
    let next := execActionsLoop run step.1 rest
    (next.1, entry :: next.2)

/-- The `switch (action.type)` body of the post-action loop (part_003
lines 909-925): `notify`, `assign` and `create_action_items` dispatch to
logging placeholders that cannot fail, `calculate_score` recomputes the
assessment's scores, and an unknown type falls through the switch. -/
def runPostAction (w : AsmtWorld) (assessment : Assessment) (action : PostAction) :
    AsmtWorld × Except String Unit :=
  match action.type with
  | "notify" => (w, .ok ())
  | "assign" => (w, .ok ())
  | "calculate_score" =>
    let r := calculateScores w assessment.id
    (r.1, r.2.map (fun _ => ()))
  | "create_action_items" => (w, .ok ())
  | _ => (w, .ok ())

/-- Model of `AssessmentService.executePostTransitionActions(assessment, fromState,
toState)` (part_003 lines 899-930): look up the transition that was taken
and run its declared post-actions; a missing workflow configuration is the
one way this method itself can throw (a TypeError on
`workflow.transitions`). -/
def executePostTransitionActions (w : AsmtWorld) (assessment : Assessment)
    (fromState toState : String) : AsmtWorld × Except String (List (String × Option String)) :=
  match ConfigService.getWorkflow w.workflows "assessment" with
  | none => (w, .error "TypeError: workflow is null")
  | some workflow =>
    match ((workflow.transitions.lookup fromState).getD []).find?
        (fun t => t.toState == toState) with
    | none => (w, .ok [])
    | some transition =>
      let r := execActionsLoop (fun s action => runPostAction s assessment action)
        w transition.post_actions
      (r.1, .ok r.2)

/-- Model of `AssessmentService.transitionState(assessmentId, newState)` (part_003
lines 852-891): load the assessment, reject when `canTransition` fails,
persist the new status with the `_at` / `_by` stamps keyed by the new
state name, then run the post-transition actions. -/
def transitionState (w : AsmtWorld) (assessmentId newState : String) :
    AsmtWorld × Except String Assessment :=
  match getAssessment w assessmentId with
  | none => (w, .error "Assessment not found")
  | some assessment =>
    let currentState := assessment.status
    let roleId := w.role.currentRole
    if !(ConfigService.canTransition w.workflows "assessment" currentState newState roleId) then
      (w, .error ("Cannot transition from " ++ currentState ++ " to " ++ newState))
    else
      match updateAssessment w assessmentId
          { status := some newState
            stamps := [(newState ++ "_at", w.now), (newState ++ "_by", w.userId)] } with
      | (w1, .error e) => (w1, .error e)
      | (w1, .ok updated) =>
        match executePostTransitionActions w1 assessment currentState newState with
        | (w2, .error e) => (w2, .error e)
        | (w2, .ok _) => (w2, .ok updated)

end AssessmentService

namespace AssessmentService

/-- The overall score as computed inside `calculateScores`
(`totalWeight > 0 ? totalWeightedScore / totalWeight : 0`), named for use
in the theorems below. -/
def overallOf (a : Assessment) : Rat :=
  if 0 < (scoresAccum a.dimensions).totalWeight then
    (scoresAccum a.dimensions).totalWeightedScore / (scoresAccum a.dimensions).totalWeight
  else 0

/-- The raw progress as computed inside `calculateScores`
(`completedDimensions / dimensions.length * 100`), named for use in the
theorems below. -/
def progressOf (a : Assessment) : Rat :=
  (((scoresAccum a.dimensions).completedDimensions : Rat) / (a.dimensions.length : Rat)) * 100

/-- The `updates` object that `calculateScores` hands to
`updateAssessment`, named for use in the theorems below. -/
def scorePayload (a : Assessment) : AsmtUpdate :=
  { progress := some (jsRound (progressOf a))
    overall_score := some ((jsRound (overallOf a * 10) : Rat) / 10)
    dimension_scores := some (scoresAccum a.dimensions).dimensionScores }

end AssessmentService

/-- Nine-dimension example assessment from the specification's scoring
scenario: three dimensions scored at 50, 80 and 100 percent, six
dimensions unscored, all weights 1. -/
def aScoresEx : Assessment :=
  { id := "a1", title := "ISO 27001 Assessment", status := "active", created_by := "u1",
    assigned_to := []
    dimensions :=
      [⟨"d1", "Governance", 1, some 5, 10⟩, ⟨"d2", "Risk", 1, some 8, 10⟩,
       ⟨"d3", "Assets", 1, some 10, 10⟩, ⟨"d4", "Access", 1, none, 10⟩,
       ⟨"d5", "Crypto", 1, none, 10⟩, ⟨"d6", "Physical", 1, none, 10⟩,
       ⟨"d7", "Operations", 1, none, 10⟩, ⟨"d8", "Comms", 1, none, 10⟩,
       ⟨"d9", "Supplier", 1, none, 10⟩]
    progress := 0, overall_score := none, dimension_scores := [], stamps := []
    updated_at := "t0" }

/-- World holding the example assessment, with a `customer_admin` that
holds the wildcard permission. -/
def wScoresEx : AsmtWorld :=
  { assessments := [aScoresEx], workflows := some ConfigService.getDefaultWorkflows
    role := ⟨[], some [("customer_admin", ["*"])], some "customer_admin"⟩
    userId := "u1", now := "t1" }

/-! ## Theorems -/

/-- Claim C10: for every form field whose condition carries an operator
outside the supported set (`===`, `==`, `!==`, `!=`, `includes`, `empty`,
`notEmpty`), `evaluateCondition` returns true, so the field is treated as
visible by default rather than hidden or rejected.  The result holds for
every loose-equality primitive and every form state. -/
theorem evaluateCondition_unknown_operator_defaults_visible
    (looseEq : JSValue → JSValue → Bool) (st : FormState) (f op : String) (v : JSValue)
    (h : op ∉ (["===", "==", "!==", "!=", "includes", "empty", "notEmpty"] : List String)) :
    evaluateCondition looseEq st ⟨f, op, v⟩ = true := by
  unfold evaluateCondition
  split <;> simp_all

/-- Witness for C10: the unsupported operator `"contains"` makes the field
visible. -/
theorem evaluateCondition_unknown_operator_witness :
    evaluateCondition (fun _ _ => false) ⟨[("status", .str "open")]⟩
      ⟨"status", "contains", .str "open"⟩ = true :=
  evaluateCondition_unknown_operator_defaults_visible _ _ _ _ _ (by decide)

/-- Counterexample for C1 as stated: with the active role's permission
list `["admin:*"]` and the request `hasPermission("edit")`, the code
returns true, yet the list contains neither `"*"`, nor `"edit:*"`, nor
the bare `"edit"`, so the specification's rule answers false. -/
theorem hasPermission_admin_star_counterexample :
    RoleService.hasPermission
        ⟨[], some [("customer_admin", ["admin:*"])], some "customer_admin"⟩
        "edit" none = true
      ∧ hasPermissionSpec ["admin:*"] "edit" none = false := by
  decide

/-- Claim C1 (amended): for every loaded permission set and active role,
`hasPermission(action, resource)` returns true iff the active role's
permission list contains the wildcard `"*"` or the hardcoded super-admin
entry `"admin:*"`, or (when a resource is given) `action:resource` or
`action:*`, or (when no resource is given) the bare `action`. -/
theorem hasPermission_iff (rs : RoleState) (P : List (String × List String))
    (current : String) (rolePerms : List String) (action : String) (resource : Option String)
    (hP : rs.permissions = some P) (hc : rs.currentRole = some current)
    (hr : P.lookup current = some rolePerms) :
    RoleService.hasPermission rs action resource = true ↔
      ("*" ∈ rolePerms ∨ "admin:*" ∈ rolePerms ∨
        (match resource with
         | some r => (action ++ ":" ++ r) ∈ rolePerms ∨ (action ++ ":*") ∈ rolePerms
         | none => action ∈ rolePerms)) := by
  unfold RoleService.hasPermission
  rw [hP, hc]
  simp only [hr]
  cases resource with
  | none =>
    by_cases h1 : "*" ∈ rolePerms <;> by_cases h2 : "admin:*" ∈ rolePerms <;>
      simp [h1, h2]
  | some r =>
    by_cases h1 : "*" ∈ rolePerms <;> by_cases h2 : "admin:*" ∈ rolePerms <;>
      simp [h1, h2]

/-- Witness for C1 (amended): a `viewer` role holding only
`["read:assessments"]` may read assessments. -/
theorem hasPermission_iff_witness :
    RoleService.hasPermission
        ⟨[], some [("viewer", ["read:assessments"])], some "viewer"⟩
        "read" (some "assessments") = true :=
  (hasPermission_iff _ [("viewer", ["read:assessments"])] "viewer" ["read:assessments"]
      "read" (some "assessments") rfl rfl rfl).mpr (by decide)

/-- The role guard of a single transition, in propositional form. -/
theorem transitionRoleOk_iff (t : Transition) (r : String) :
    ConfigService.transitionRoleOk t (some r) = true ↔
      (t.roles = none ∨ ∃ rs, t.roles = some rs ∧ r ∈ rs) := by
  cases h : t.roles with
  | none => simp [ConfigService.transitionRoleOk, h]
  | some rs => simp [ConfigService.transitionRoleOk, h]

/-- Claim C3: for every workflow definition, states and role,
`canTransition(workflowType, fromState, toState, roleId)` returns true iff
the workflow's transition table lists `toState` as a target of `fromState`
and the matching transition either has no role allow-list or its
allow-list contains `roleId`. -/
theorem canTransition_iff (cfg : Option Workflows) (wf : Workflow)
    (workflowType fromState toState roleId : String)
    (h : ConfigService.getWorkflow cfg workflowType = some wf) :
    ConfigService.canTransition cfg workflowType fromState toState (some roleId) = true ↔
      ∃ t ∈ (wf.transitions.lookup fromState).getD [],
        t.toState = toState ∧
        (t.roles = none ∨ ∃ rs, t.roles = some rs ∧ roleId ∈ rs) := by
  unfold ConfigService.canTransition ConfigService.getAllowedTransitions
  rw [h]
  simp only [List.any_eq_true, List.mem_filter, transitionRoleOk_iff, beq_iff_eq]
  constructor
  · rintro ⟨t, ⟨ht, hok⟩, hto⟩
    exact ⟨t, ht, hto, hok⟩
  · rintro ⟨t, ht, hto, hok⟩
    exact ⟨t, ⟨ht, hok⟩, hto⟩

/-- Witness for C3: under the default workflow configuration,
`customer_admin` may activate a draft assessment. -/
theorem canTransition_iff_witness :
    ConfigService.canTransition (some ConfigService.getDefaultWorkflows)
      "assessment" "draft" "active" (some "customer_admin") = true :=
  (canTransition_iff (some ConfigService.getDefaultWorkflows) _
      "assessment" "draft" "active" "customer_admin" rfl).mpr (by decide)

/-- Claim C7: `load(resource)` answers from the cache without any I/O when
a result is cached; when a request for the resource is in flight it hands
the same pending promise to every caller without starting a new fetch; and
two calls before the first resolves start exactly one physical fetch and
leave both callers awaiting the same promise, hence receiving identical
data when it settles. -/
theorem load_cache_and_coalescing (s : ApiState) (resource : String) :
    (∀ d, s.cache.lookup resource = some d →
      ApiService.load s resource = (s, .cached d)) ∧
    (∀ p, s.cache.lookup resource = none → s.pendingRequests.lookup resource = some p →
      ApiService.load s resource = (s, .pending p)) ∧
    (s.cache.lookup resource = none → s.pendingRequests.lookup resource = none →
      ∃ p, ApiService.load s resource =
          ({ s with
              pendingRequests := (resource, p) :: s.pendingRequests
              nextPromiseId := p + 1
              fetchLog := s.fetchLog ++ [resource] }, .pending p) ∧
        ApiService.load (ApiService.load s resource).1 resource =
          ((ApiService.load s resource).1, .pending p)) := by
  refine ⟨?_, ?_, ?_⟩
  · intro d hd
    unfold ApiService.load
    rw [hd]
  · intro p hc hp
    unfold ApiService.load
    rw [hc, hp]
  · intro hc hp
    refine ⟨s.nextPromiseId, ?_, ?_⟩
    · unfold ApiService.load
      rw [hc, hp]
    · unfold ApiService.load
      rw [hc, hp]
      simp [List.lookup]
      rw [hc]

/-- Witness for C7: a cached `roles` payload is returned as-is, without
touching the pending map, the promise counter or the fetch log. -/
theorem load_cache_witness :
    ApiService.load ⟨[("roles", "payload")], [], 0, []⟩ "roles" =
      (⟨[("roles", "payload")], [], 0, []⟩, .cached "payload") :=
  (load_cache_and_coalescing ⟨[("roles", "payload")], [], 0, []⟩ "roles").1 "payload" rfl

/-- The substring test of the navigation filter, in propositional form. -/
theorem isItemAllowed_iff (item : NavItem) (ns : NavSetting) :
    NavigationService.isItemAllowedForRole item ns = true ↔
      (ns = .all ∨ ∃ l, ns = NavSetting.items l ∧
        ∃ a ∈ l, a.data <:+: item.id.data ∨ a.data <:+: item.href.data) := by
  cases ns with
  | all => simp [NavigationService.isItemAllowedForRole]
  | items l =>
    simp [NavigationService.isItemAllowedForRole, strIncludes, List.any_eq_true]

/-- Claim C2: for every role definition and loaded navigation data,
`buildMenu` returns an entry for every navigation item (it removes none),
and an item is marked allowed iff the role's allow-list is the sentinel
`all` or the item's id or href contains, as a substring, some entry of the
allow-list. -/
theorem buildMenu_keeps_items_and_marks_allowed
    (nav : List NavItem) (role : RoleDef) (isCur : String → Bool) :
    ((NavigationService.buildMenu (some nav) (some role) isCur).map MenuItem.item = nav) ∧
    (∀ m ∈ NavigationService.buildMenu (some nav) (some role) isCur,
      (m.isAllowed = true ↔
        (role.navigation = .all ∨ ∃ l, role.navigation = NavSetting.items l ∧
          ∃ a ∈ l, a.data <:+: m.item.id.data ∨ a.data <:+: m.item.href.data))) := by
  cases hnav : role.navigation with
  | all =>
    constructor
    · simp only [NavigationService.buildMenu, hnav, List.map_map]
      exact List.map_id nav
    · intro m hm
      simp only [NavigationService.buildMenu, hnav, List.mem_map] at hm
      obtain ⟨item, _, rfl⟩ := hm
      simp [hnav]
  | items l =>
    constructor
    · simp only [NavigationService.buildMenu, hnav, List.map_map]
      exact List.map_id nav
    · intro m hm
      simp only [NavigationService.buildMenu, hnav, List.mem_map] at hm
      obtain ⟨item, _, rfl⟩ := hm
      rw [isItemAllowed_iff]

/-- Witness for C2: an allow-list entry `"assessment"` allows the item
with id `"assessment-list"` by substring match, and no item is dropped. -/
theorem buildMenu_witness :
    ((NavigationService.buildMenu
        (some [⟨"assessment-list", "Assessments", "file", "03_templates.html"⟩,
               ⟨"team", "Team", "users", "08_team.html"⟩])
        (some ⟨"Contributor", "Team Member", "user", false, .items ["assessment"]⟩)
        (fun _ => false)).map MenuItem.item =
      [⟨"assessment-list", "Assessments", "file", "03_templates.html"⟩,
       ⟨"team", "Team", "users", "08_team.html"⟩]) :=
  (buildMenu_keeps_items_and_marks_allowed
      [⟨"assessment-list", "Assessments", "file", "03_templates.html"⟩,
       ⟨"team", "Team", "users", "08_team.html"⟩]
      ⟨"Contributor", "Team Member", "user", false, .items ["assessment"]⟩
      (fun _ => false)).1

/-- Looking up the key just written by `setAssoc` yields the new value. -/
theorem lookup_setAssoc (l : List (String × String)) (k v : String) :
    (setAssoc l k v).lookup k = some v := by
  induction l with
  | nil => simp [setAssoc, List.lookup]
  | cons kv rest ih =>
    obtain ⟨k', v'⟩ := kv
    by_cases h : k' = k
    · simp [setAssoc, h, List.lookup]
    · have hb : (k' == k) = false := beq_eq_false_iff_ne.mpr h
      have hb' : (k == k') = false := beq_eq_false_iff_ne.mpr (Ne.symm h)
      simp [setAssoc, hb, List.lookup, hb', ih]

/-- Auxiliary fact: `updateStoreRole` only rewrites the store snapshot. -/
theorem updateStoreRole_preserves (w : RoleSwitchWorld) (roleId : String) :
    (RoleService.updateStoreRole w roleId).role = w.role ∧
    (RoleService.updateStoreRole w roleId).storage = w.storage ∧
    (RoleService.updateStoreRole w roleId).events = w.events := by
  unfold RoleService.updateStoreRole
  cases w.role.roles.lookup roleId <;> simp

/-- Claim C8: `switchRole` on an unknown role id reports failure, leaves
the active role and the persisted storage unchanged and emits no
role-changed notification (only a data-error event is appended); on a
known role id it replaces the active-role pointer, persists the choice
under the `reabel_demoRole` storage key and emits a role-changed event
carrying the role id together with its full definition. -/
theorem switchRole_contract (w : RoleSwitchWorld) (roleId : String) :
    (w.role.roles.lookup roleId = none →
      RoleService.switchRole w roleId =
        ({ w with events := w.events ++ [.dataError "RoleService" "switchRole"] }, false) ∧
      (∀ rid role, RoleEvent.roleChanged rid role ∈ (RoleService.switchRole w roleId).1.events →
        RoleEvent.roleChanged rid role ∈ w.events)) ∧
    (∀ role, w.role.roles.lookup roleId = some role →
      (RoleService.switchRole w roleId).2 = true ∧
      (RoleService.switchRole w roleId).1.role.currentRole = some roleId ∧
      (RoleService.switchRole w roleId).1.storage.lookup ("reabel_" ++ "demoRole") = some roleId ∧
      (RoleService.switchRole w roleId).1.events = w.events ++ [.roleChanged roleId role]) := by
  constructor
  · intro hnone
    have heq : RoleService.switchRole w roleId =
        ({ w with events := w.events ++ [.dataError "RoleService" "switchRole"] }, false) := by
      unfold RoleService.switchRole
      rw [hnone]
    refine ⟨heq, ?_⟩
    intro rid role hmem
    rw [heq] at hmem
    simp only [List.mem_append, List.mem_singleton] at hmem
    rcases hmem with h | h
    · exact h
    · exact absurd h (by simp)
  · intro role hsome
    have heq : RoleService.switchRole w roleId =
        ({ role := { w.role with currentRole := some roleId }
           storage := setAssoc w.storage ("reabel_" ++ "demoRole") roleId
           storeCurrentRole := some
             { id := roleId, name := role.name, type := role.type, icon := role.icon,
               readOnly := role.readOnly, navigation := role.navigation,
               permissions := ((w.role.permissions.getD []).lookup roleId).getD [] }
           events := w.events ++ [.roleChanged roleId role] }, true) := by
      unfold RoleService.switchRole RoleService.updateStoreRole
      rw [hsome]
      simp [hsome]
    rw [heq]
    exact ⟨rfl, rfl, lookup_setAssoc w.storage ("reabel_" ++ "demoRole") roleId, rfl⟩

/-- Witness for C8: switching a fresh world to the known role `viewer`
succeeds. -/
theorem switchRole_witness :
    (RoleService.switchRole
        ⟨⟨[("viewer", ⟨"Viewer", "Read Only", "eye", true, .items ["dashboard"]⟩)],
          some [("viewer", ["read:assessments"])], some "customer_admin"⟩,
         [], none, []⟩ "viewer").2 = true :=
  ((switchRole_contract
      ⟨⟨[("viewer", ⟨"Viewer", "Read Only", "eye", true, .items ["dashboard"]⟩)],
        some [("viewer", ["read:assessments"])], some "customer_admin"⟩,
       [], none, []⟩ "viewer").2
    ⟨"Viewer", "Read Only", "eye", true, .items ["dashboard"]⟩ rfl).1

/-- The post-action loop runs every action in declaration order and folds
the state through the actions, regardless of failures. -/
theorem execActionsLoop_spec {σ : Type} (run : σ → PostAction → σ × Except String Unit)
    (s : σ) (actions : List PostAction) :
    ((AssessmentService.execActionsLoop run s actions).2.map Prod.fst =
      actions.map PostAction.type) ∧
    (AssessmentService.execActionsLoop run s actions).1 =
      actions.foldl (fun st action => (run st action).1) s := by
  induction actions generalizing s with
  | nil => simp [AssessmentService.execActionsLoop]
  | cons a rest ih =>
    simp [AssessmentService.execActionsLoop, ih]

/-- Claim C9: after a workflow transition is persisted, the matched
transition's declared post-actions all execute, sequentially and in
declaration order; a failing post-action is caught and logged (the method
returns normally, never an error), the state each action leaves behind is
kept (fold semantics, no rollback), and the remaining actions still run. -/
theorem postTransitionActions_best_effort (w : AsmtWorld) (assessment : Assessment)
    (fromState toState : String) (workflow : Workflow) (transition : Transition)
    (hw : ConfigService.getWorkflow w.workflows "assessment" = some workflow)
    (ht : ((workflow.transitions.lookup fromState).getD []).find?
        (fun t => t.toState == toState) = some transition) :
    ∃ w' log,
      AssessmentService.executePostTransitionActions w assessment fromState toState =
        (w', .ok log) ∧
      log.map Prod.fst = transition.post_actions.map PostAction.type ∧
      w' = transition.post_actions.foldl
        (fun st action => (AssessmentService.runPostAction st assessment action).1) w := by
  unfold AssessmentService.executePostTransitionActions
  simp only [hw]
  simp only [ht]
  obtain ⟨h1, h2⟩ := execActionsLoop_spec
    (fun s action => AssessmentService.runPostAction s assessment action)
    w transition.post_actions
  exact ⟨_, _, rfl, h1, h2⟩

/-- Witness for C9: a draft-to-active transition with two declared
post-actions (one of unknown type) executes without propagating an
error. -/
theorem postTransitionActions_witness :
    ∃ w' log,
      AssessmentService.executePostTransitionActions
        ⟨[], some [("assessment",
            ⟨["draft", "active"], "draft",
             [("draft", [{ toState := "active", label := "Activate", roles := none,
                           post_actions := [⟨"notify"⟩, ⟨"frobnicate"⟩] }])]⟩)],
          ⟨[], none, none⟩, "u1", "t0"⟩
        ⟨"a1", "Quarterly", "draft", "u1", [], [], 0, none, [], [], "t0"⟩
        "draft" "active" = (w', Except.ok log) := by
  obtain ⟨w', log, h, -, -⟩ := postTransitionActions_best_effort
    ⟨[], some [("assessment",
        ⟨["draft", "active"], "draft",
         [("draft", [{ toState := "active", label := "Activate", roles := none,
                       post_actions := [⟨"notify"⟩, ⟨"frobnicate"⟩] }])]⟩)],
      ⟨[], none, none⟩, "u1", "t0"⟩
    ⟨"a1", "Quarterly", "draft", "u1", [], [], 0, none, [], [], "t0"⟩
    "draft" "active" _ _ rfl rfl
  exact ⟨w', log, h⟩

/-- Claim C4: if `canTransition` rejects the move from the assessment's
current state to the target state for the current role, then
`transitionState` fails with the transition error and the whole world —
in particular the assessment record — is left untouched: no partial state
change is persisted and no post-action runs. -/
theorem transitionState_guard_no_partial (w : AsmtWorld) (assessmentId newState : String)
    (a : Assessment) (ha : AssessmentService.getAssessment w assessmentId = some a)
    (hc : ConfigService.canTransition w.workflows "assessment" a.status newState
        w.role.currentRole = false) :
    AssessmentService.transitionState w assessmentId newState =
      (w, .error ("Cannot transition from " ++ a.status ++ " to " ++ newState)) := by
  unfold AssessmentService.transitionState
  simp only [ha]
  simp [hc]

/-- Witness for C4: under the default workflow configuration there is no
direct edge from `draft` to `published`, so the transition is rejected and
the world is returned unchanged. -/
theorem transitionState_guard_witness :
    AssessmentService.transitionState
      ⟨[⟨"a1", "Quarterly", "draft", "u1", [], [], 0, none, [], [], "t0"⟩],
        some ConfigService.getDefaultWorkflows,
        ⟨[], some [("customer_admin", ["*"])], some "customer_admin"⟩, "u1", "t1"⟩
      "a1" "published" =
      (⟨[⟨"a1", "Quarterly", "draft", "u1", [], [], 0, none, [], [], "t0"⟩],
        some ConfigService.getDefaultWorkflows,
        ⟨[], some [("customer_admin", ["*"])], some "customer_admin"⟩, "u1", "t1"⟩,
       .error ("Cannot transition from " ++ "draft" ++ " to " ++ "published")) :=
  transitionState_guard_no_partial _ "a1" "published"
    ⟨"a1", "Quarterly", "draft", "u1", [], [], 0, none, [], [], "t0"⟩ rfl (by decide)

/-- The score fold, characterised over the scored dimensions only. -/
theorem foldl_scoreStep (dims : List Dimension) (acc : AssessmentService.ScoreAcc) :
    dims.foldl AssessmentService.scoreStep acc =
      { totalWeightedScore := acc.totalWeightedScore +
          ((dims.filter (fun d => d.score.isSome)).map
            (fun d => d.score.getD 0 / d.max_score * 100 * d.weight)).sum
        totalWeight := acc.totalWeight +
          ((dims.filter (fun d => d.score.isSome)).map (fun d => d.weight)).sum
        completedDimensions := acc.completedDimensions +
          (dims.filter (fun d => d.score.isSome)).length
        dimensionScores := acc.dimensionScores ++
          (dims.filter (fun d => d.score.isSome)).map (fun d =>
            { dimension_id := d.id, dimension_name := d.name, score := d.score.getD 0,
              max_score := d.max_score, percentage := d.score.getD 0 / d.max_score * 100,
              weight := d.weight }) } := by
  induction dims generalizing acc with
  | nil => simp
  | cons d rest ih =>
    cases hd : d.score with
    | none =>
      simp only [List.foldl_cons, AssessmentService.scoreStep, hd]
      rw [ih]
      simp [List.filter_cons, hd]
    | some s =>
      simp only [List.foldl_cons, AssessmentService.scoreStep, hd]
      rw [ih]
      simp only [List.filter_cons, hd, Option.isSome_some, if_true, List.map_cons,
        List.sum_cons, List.length_cons, Option.getD_some, AssessmentService.ScoreAcc.mk.injEq]
      refine ⟨by ring, by ring, by omega, by simp [List.append_assoc]⟩

/-- Characterisation of `scoresAccum` over the scored dimensions only. -/
theorem scoresAccum_spec (dims : List Dimension) :
    AssessmentService.scoresAccum dims =
      { totalWeightedScore := ((dims.filter (fun d => d.score.isSome)).map
          (fun d => d.score.getD 0 / d.max_score * 100 * d.weight)).sum
        totalWeight := ((dims.filter (fun d => d.score.isSome)).map (fun d => d.weight)).sum
        completedDimensions := (dims.filter (fun d => d.score.isSome)).length
        dimensionScores := (dims.filter (fun d => d.score.isSome)).map (fun d =>
          { dimension_id := d.id, dimension_name := d.name, score := d.score.getD 0,
            max_score := d.max_score, percentage := d.score.getD 0 / d.max_score * 100,
            weight := d.weight }) } := by
  unfold AssessmentService.scoresAccum
  rw [foldl_scoreStep]
  simp [AssessmentService.ScoreAcc.mk.injEq]

/-- With positive dimension weights, the accumulated weight of the scored
dimensions is positive exactly when some dimension is scored. -/
theorem weights_sum_pos (dims : List Dimension) (hw : ∀ d ∈ dims, 0 < d.weight)
    (hne : dims.filter (fun d => d.score.isSome) ≠ []) :
    0 < ((dims.filter (fun d => d.score.isSome)).map (fun d => d.weight)).sum := by
  apply List.sum_pos
  · intro x hx
    obtain ⟨d, hd, rfl⟩ := List.mem_map.mp hx
    exact hw d (List.mem_of_mem_filter hd)
  · simpa using hne

/-- Replacing the first assessment with a given id keeps it findable. -/
theorem find_setFirst (l : List Assessment) (assessmentId : String) (a a' : Assessment)
    (h : l.find? (fun x => x.id == assessmentId) = some a) (h' : a'.id = a.id) :
    (AssessmentService.setFirst l assessmentId a').find? (fun x => x.id == assessmentId) =
      some a' := by
  induction l with
  | nil => simp [List.find?] at h
  | cons x xs ih =>
    by_cases hx : (x.id == assessmentId) = true
    · simp only [List.find?, hx] at h
      have hxa : x = a := Option.some.inj h
      have ha' : (a'.id == assessmentId) = true :=
        beq_iff_eq.mpr (h'.trans (hxa ▸ beq_iff_eq.mp hx))
      simp [AssessmentService.setFirst, hx, List.find?, ha']
    · simp only [Bool.not_eq_true] at hx
      simp only [List.find?, hx] at h
      simp [AssessmentService.setFirst, hx, List.find?]
      exact ih h

/-- Successful run of `calculateScores`, fully characterised: the updated
world stores the merged assessment and the caller receives the unrounded
overall score, the dimension scores and the unrounded progress. -/
theorem calculateScores_ok (w : AsmtWorld) (assessmentId : String) (a : Assessment)
    (ha : AssessmentService.getAssessment w assessmentId = some a)
    (hcu : AssessmentService.canUpdate w a = true) :
    AssessmentService.calculateScores w assessmentId =
      ({ w with assessments := (AssessmentService.setFirst w.assessments assessmentId (applyUpdate a (AssessmentService.scorePayload a) w.now)) },
       .ok ⟨AssessmentService.overallOf a,
            (AssessmentService.scoresAccum a.dimensions).dimensionScores,
            AssessmentService.progressOf a⟩) := by
  unfold AssessmentService.calculateScores AssessmentService.updateAssessment
  simp only [ha]
  simp [hcu, AssessmentService.overallOf, AssessmentService.progressOf,
    AssessmentService.scorePayload]

/-- Claim C5: `calculateScores` computes, over exactly the dimensions with
a non-null score, `percentage = score / max_score * 100`; the overall
score is `Σ(percentage·weight) / Σ(weight)` over the scored dimensions
only (0 when no dimension is scored; unscored dimensions enter neither
numerator nor denominator), and the persisted progress is the count of
scored dimensions over the total dimension count, times 100, rounded to
the nearest integer.  Stated for positive dimension weights, as in every
shipped template. -/
theorem calculateScores_aggregation (w : AsmtWorld) (assessmentId : String) (a : Assessment)
    (ha : AssessmentService.getAssessment w assessmentId = some a)
    (hcu : AssessmentService.canUpdate w a = true)
    (hw : ∀ d ∈ a.dimensions, 0 < d.weight) :
    ∃ w' r, AssessmentService.calculateScores w assessmentId = (w', .ok r) ∧
      r.dimension_scores = (a.dimensions.filter (fun d => d.score.isSome)).map (fun d =>
        { dimension_id := d.id, dimension_name := d.name, score := d.score.getD 0,
          max_score := d.max_score, percentage := d.score.getD 0 / d.max_score * 100,
          weight := d.weight }) ∧
      r.overall_score =
        (if a.dimensions.filter (fun d => d.score.isSome) = [] then 0
         else ((a.dimensions.filter (fun d => d.score.isSome)).map
                 (fun d => d.score.getD 0 / d.max_score * 100 * d.weight)).sum /
              ((a.dimensions.filter (fun d => d.score.isSome)).map (fun d => d.weight)).sum) ∧
      ∃ a', AssessmentService.getAssessment w' assessmentId = some a' ∧
        a'.progress = AssessmentService.jsRound
          ((((a.dimensions.filter (fun d => d.score.isSome)).length : Rat) /
            (a.dimensions.length : Rat)) * 100) := by
  refine ⟨_, _, calculateScores_ok w assessmentId a ha hcu, ?_, ?_, ?_⟩
  · show (AssessmentService.scoresAccum a.dimensions).dimensionScores = _
    rw [scoresAccum_spec]
  · show AssessmentService.overallOf a = _
    unfold AssessmentService.overallOf
    rw [scoresAccum_spec]
    by_cases hne : a.dimensions.filter (fun d => d.score.isSome) = []
    · simp [hne]
    · have hpos := weights_sum_pos a.dimensions hw hne
      simp [hne, hpos]
  · refine ⟨applyUpdate a (AssessmentService.scorePayload a) w.now, ?_, ?_⟩
    · show (AssessmentService.setFirst w.assessments assessmentId
          (applyUpdate a (AssessmentService.scorePayload a) w.now)).find?
          (fun x => x.id == assessmentId) = _
      exact find_setFirst w.assessments assessmentId a _ ha rfl
    · show (AssessmentService.scorePayload a).progress.getD a.progress = _
      simp only [AssessmentService.scorePayload, Option.getD_some]
      unfold AssessmentService.progressOf
      rw [scoresAccum_spec]

/-- Witness for C5: the specification's scenario — nine dimensions of
weight 1, three scored with percentages 50, 80 and 100 — yields overall
score 230/3 and persisted progress 33. -/
theorem calculateScores_aggregation_witness :
    ∃ w' r, AssessmentService.calculateScores wScoresEx "a1" = (w', Except.ok r) ∧
      r.overall_score = 230 / 3 ∧
      ∃ a', AssessmentService.getAssessment w' "a1" = some a' ∧ a'.progress = 33 := by
  obtain ⟨w', r, hcalc, -, hov, a', hga, hpr⟩ :=
    calculateScores_aggregation wScoresEx "a1" aScoresEx rfl (by decide) (by decide)
  refine ⟨w', r, hcalc, hov.trans ?_, a', hga, hpr.trans ?_⟩
  · norm_num [aScoresEx]
    exact List.cons_ne_nil _ _
  · norm_num [AssessmentService.jsRound, aScoresEx]

/-- Claim C6: `calculateScores` is idempotent: a second run without any
change to the dimension scores succeeds and yields the same overall score
and the same progress as the first run. -/
theorem calculateScores_idempotent (w : AsmtWorld) (assessmentId : String) (a : Assessment)
    (ha : AssessmentService.getAssessment w assessmentId = some a)
    (hcu : AssessmentService.canUpdate w a = true) :
    ∃ w1 r1 w2 r2,
      AssessmentService.calculateScores w assessmentId = (w1, .ok r1) ∧
      AssessmentService.calculateScores w1 assessmentId = (w2, .ok r2) ∧
      r2.overall_score = r1.overall_score ∧ r2.progress = r1.progress := by
  have h1 := calculateScores_ok w assessmentId a ha hcu
  have ha2 : AssessmentService.getAssessment
      { w with assessments := (AssessmentService.setFirst w.assessments assessmentId (applyUpdate a (AssessmentService.scorePayload a) w.now)) }
      assessmentId = some (applyUpdate a (AssessmentService.scorePayload a) w.now) := by
    show (AssessmentService.setFirst w.assessments assessmentId
        (applyUpdate a (AssessmentService.scorePayload a) w.now)).find?
        (fun x => x.id == assessmentId) = _
    exact find_setFirst w.assessments assessmentId a _ ha rfl
  have hcu2 : AssessmentService.canUpdate
      { w with assessments := (AssessmentService.setFirst w.assessments assessmentId (applyUpdate a (AssessmentService.scorePayload a) w.now)) }
      (applyUpdate a (AssessmentService.scorePayload a) w.now) = true := hcu
  have h2 := calculateScores_ok _ assessmentId _ ha2 hcu2
  exact ⟨_, _, _, _, h1, h2, rfl, rfl⟩

/-- Witness for C6: running `calculateScores` twice on the nine-dimension
example yields identical overall scores and progress values. -/
theorem calculateScores_idempotent_witness :
    ∃ w1 r1 w2 r2,
      AssessmentService.calculateScores wScoresEx "a1" = (w1, Except.ok r1) ∧
      AssessmentService.calculateScores w1 "a1" = (w2, Except.ok r2) ∧
      r2.overall_score = r1.overall_score ∧ r2.progress = r1.progress :=
  calculateScores_idempotent wScoresEx "a1" aScoresEx rfl (by decide)

end Reabel
